import Mathlib

/-!
Verification of the `precio-nafta-info` report generator.

This development is a shallow embedding of the JavaScript source
(`src/index.js`, second variant, and the server variant embedded in the
deployment notes) into Lean 4:

* a `Record` models one priced-item observation from the upstream API;
  JavaScript falsy field values (`undefined`, `null`, `""`) are modelled
  as `none`;
* date values flowing through `moment(...)` are modelled by `DateField`:
  a field can be absent (`moment(undefined)` yields the current instant),
  present but unparseable (an invalid moment), or parse to a timestamp
  on an abstract integer timeline; calendar-date formatting at a given
  UTC offset is modelled by an abstract formatting function `ℤ → String`
  passed as a parameter;
* the API envelope (`data.result.records`) is modelled by `ApiData`:
  the outer `Option` is truthiness of `data`, the inner `Option` is
  truthiness of `data.result`, and `RecordsField` distinguishes an
  actual array from any non-array value (`Array.isArray` failing);
* JavaScript `Set` sizes are modelled by `distinctCount` (length after
  `dedup`), percentages by exact rationals with `toFixed(2)` modelled as
  round-half-up to two decimals, and a thrown `TypeError` by
  `Except.error`;
* `Array.prototype.sort` with comparator `(a, b) => b.count - a.count`
  is, per the ECMAScript specification, a stable sort by descending
  `count`; a stable sort's output is uniquely determined by the
  comparator and the input order, so it is modelled by a structural
  stable insertion sort.
-/

namespace PrecioNafta

/-- The value of a date-bearing field as seen by `moment(...)`:
absent (all candidate field names undefined), present but unparseable,
or parsed to an instant on an abstract integer timeline. -/
inductive DateField
  | missing
  | invalid
  | parsed (t : ℤ)
deriving DecidableEq, Repr

/-- One record of the upstream dataset.  `fecha` models the value chosen by
the fallback chain `item.fecha || item.date || item.created_at ||
item.timestamp` of the range filter; `fecha_vigencia` is the field used by
the today filter.  Falsy values are `none`. -/
structure Record where
  fecha_vigencia : DateField := .missing
  fecha : DateField := .missing
  producto : Option String := none
  provincia : Option String := none
  empresa : Option String := none
  empresabandera : Option String := none
  localidad : Option String := none
  idempresa : Option String := none
  precio : Option ℚ := none
deriving DecidableEq, Repr

/-- The `records` member of the envelope: either an actual array
(`Array.isArray` succeeds) or anything else (absent or non-array). -/
inductive RecordsField
  | arr (rs : List Record)
  | notArr
deriving DecidableEq

/-- The raw API response `data`: outer `Option` is truthiness of `data`,
inner `Option` is truthiness of `data.result`. -/
abbrev ApiData := Option (Option RecordsField)

/-- `moment(x)` for a date-bearing field: `moment(undefined)` is the
current instant `now`; an unparseable value is an invalid moment
(`none`); otherwise the parsed instant. -/
def momentOf (now : ℤ) : DateField → Option ℤ
  | .missing => some now
  | .invalid => none
  | .parsed t => some t

/-- `filterDataByDate(data, startDate, endDate)`: envelope check, then
`moment(item.fecha || ...).isBetween(start, end, null, "[]")` — inclusive
on both ends; an invalid moment never matches. -/
def filterDataByDate (d : ApiData) (startT endT now : ℤ) : List Record :=
  match d with
  | some (some (.arr rs)) =>
      rs.filter (fun item =>
        match momentOf now item.fecha with
        | some t => decide (startT ≤ t ∧ t ≤ endT)
        | none => false)
  | _ => []

/-- `moment(item.fecha_vigencia).format("YYYY-MM-DD")` with the process's
local formatting function `fmtLocal`: a missing field formats the current
instant, an invalid moment formats to the literal `"Invalid date"`. -/
def itemDateStr (fmtLocal : ℤ → String) (now : ℤ) : DateField → String
  | .missing => fmtLocal now
  | .invalid => "Invalid date"
  | .parsed t => fmtLocal t

/-- `filterTodayData(data)`: envelope check, then compare each record's
locally formatted `fecha_vigencia` against today's calendar date
evaluated at UTC-3 (`moment().utcOffset(-3).format("YYYY-MM-DD")`,
modelled by `fmtUtcMinus3 now`). -/
def filterTodayData (fmtUtcMinus3 fmtLocal : ℤ → String) (now : ℤ)
    (d : ApiData) : List Record :=
  match d with
  | some (some (.arr rs)) =>
      let todayArgentina := fmtUtcMinus3 now
      rs.filter (fun item =>
        itemDateStr fmtLocal now item.fecha_vigencia = todayArgentina)
  | _ => []

/-- Insert `item` into the bucket named `key` of the association list
`acc`, appending the bucket at the end when `key` is new.  This models
one step of `groupDataBy`'s object building; insertion order of the
association list models the enumeration order of `Object.keys`. -/
def pushGroup (acc : List (String × List Record)) (key : String)
    (item : Record) : List (String × List Record) :=
  match acc with
  | [] => [(key, [item])]
  | (k, items) :: rest =>
      if k = key then (k, items ++ [item]) :: rest
      else (k, items) :: pushGroup rest key item

/-- `groupDataBy(data, field)`: one pass over the records; a falsy field
value is bucketed under the literal `"Sin especificar"`. -/
def groupDataBy (data : List Record) (field : Record → Option String) :
    List (String × List Record) :=
  data.foldl
    (fun acc item => pushGroup acc ((field item).getD "Sin especificar") item)
    []

/-- `new Set(l).size`: the number of distinct elements of `l`. -/
def distinctCount {α : Type} [DecidableEq α] (l : List α) : ℕ :=
  l.dedup.length

/-- `item.precio && item.precio > 0`: a truthy, strictly positive price. -/
def hasPositivePrice (r : Record) : Bool :=
  match r.precio with
  | some p => decide (0 < p)
  | none => false

/-- `x.toFixed(n)` on a nonnegative number, as an exact rational:
round half up at `m = 10^n` subdivisions. -/
def roundHalfUp (m : ℕ) (q : ℚ) : ℚ :=
  ((q * m + 1 / 2).floor : ℚ) / m

/-- `x.toFixed(2)` as an exact rational. -/
def round2 (q : ℚ) : ℚ := roundHalfUp 100 q

/-- The percentage pattern of `analyzeData`:
`d > 0 ? ((n / d) * 100).toFixed(2) : 0`.  The string produced by
`toFixed` is modelled by its numeric value. -/
def pctOrZero (n d : ℕ) : ℚ :=
  if 0 < d then round2 ((n : ℚ) / d * 100) else 0

/-- The per-group summary built by `analyzeData` for the product,
province, flag-company and locality dimensions. -/
structure GroupSummary where
  name : String
  count : ℕ
  activeStations : ℕ
  records : List Record
deriving DecidableEq, Repr

/-- The per-group summary built for the gas-station (`empresa`)
dimension, which carries no station set. -/
structure StationSummary where
  name : String
  count : ℕ
  records : List Record
deriving DecidableEq, Repr

/-- Build a `GroupSummary` from one bucket: `count` is the bucket size,
`activeStations` the number of distinct truthy `idempresa` values. -/
def mkGroupSummary (g : String × List Record) : GroupSummary :=
  { name := g.1
    count := g.2.length
    activeStations := distinctCount (g.2.filterMap Record.idempresa)
    records := g.2 }

/-- Stable insertion of `a` in front of the first element whose count
does not exceed `count a`; used from the right end of the list, this
keeps elements of equal count in their original relative order. -/
def insertDescBy {α : Type} (count : α → ℕ) (a : α) :
    List α → List α
  | [] => [a]
  | b :: l =>
      if count b ≤ count a then a :: b :: l
      else b :: insertDescBy count a l

/-- `xs.sort((a, b) => b.count - a.count)`: the stable sort by
descending count, realised as insertion sort. -/
def sortByCountDescBy {α : Type} (count : α → ℕ) (l : List α) : List α :=
  l.foldr (insertDescBy count) []

/-- Stable descending sort of `GroupSummary` lists. -/
def sortByCountDesc (l : List GroupSummary) : List GroupSummary :=
  sortByCountDescBy GroupSummary.count l

/-- Stable descending sort of `StationSummary` lists. -/
def sortStationsByCountDesc (l : List StationSummary) : List StationSummary :=
  sortByCountDescBy StationSummary.count l

/-- The locality dimension before the `slice(0, 10)` cut. -/
def byLocalityFull (todayData : List Record) : List GroupSummary :=
  sortByCountDesc ((groupDataBy todayData Record.localidad).map mkGroupSummary)

/-- `analysis.gasStationStats`. -/
structure GasStationStats where
  totalStations : ℕ
  activeStationsToday : ℕ
  activeStationsWithPrices : ℕ
  percentageActive : ℚ
  percentageWithPrices : ℚ
deriving DecidableEq, Repr

/-- `analysis.flagCompanyStats`. -/
structure FlagCompanyStats where
  totalBrands : ℕ
  activeBrandsToday : ℕ
  activeBrandsWithPrices : ℕ
  percentageActive : ℚ
deriving DecidableEq, Repr

/-- The full result of `analyzeData`. -/
structure Analysis where
  totalRecords : ℕ
  byProduct : List GroupSummary
  byProvince : List GroupSummary
  byGasStation : List StationSummary
  byFlagCompany : List GroupSummary
  byLocality : List GroupSummary
  gasStationStats : GasStationStats
  flagCompanyStats : FlagCompanyStats
deriving DecidableEq, Repr

/-- `analyzeData(todayData, allData)`.  Note, as in the source:
`activeStationsToday` and `activeBrandsToday` drop falsy identifiers
(`.filter(Boolean)`), while the two `...WithPrices` sets map to the
identifier without that filter, so a priced record with a falsy
identifier contributes a distinct `undefined` element to those sets;
`totalBrands` is the size of the same set as `activeBrandsToday`. -/
def analyzeData (todayData allData : List Record) : Analysis :=
  let totalUniqueStations := distinctCount (allData.filterMap Record.idempresa)
  let activeStationsToday := distinctCount (todayData.filterMap Record.idempresa)
  let activeStationsWithPrices :=
    distinctCount ((todayData.filter hasPositivePrice).map Record.idempresa)
  let activeBrandsToday := distinctCount (todayData.filterMap Record.empresabandera)
  let activeBrandsWithPrices :=
    distinctCount ((todayData.filter hasPositivePrice).map Record.empresabandera)
  { totalRecords := todayData.length
    byProduct :=
      sortByCountDesc ((groupDataBy todayData Record.producto).map mkGroupSummary)
    byProvince :=
      sortByCountDesc ((groupDataBy todayData Record.provincia).map mkGroupSummary)
    byGasStation :=
      sortStationsByCountDesc ((groupDataBy todayData Record.empresa).map
        (fun g => { name := g.1, count := g.2.length, records := g.2 }))
    byFlagCompany :=
      sortByCountDesc ((groupDataBy todayData Record.empresabandera).map mkGroupSummary)
    byLocality := (byLocalityFull todayData).take 10
    gasStationStats :=
      { totalStations := totalUniqueStations
        activeStationsToday := activeStationsToday
        activeStationsWithPrices := activeStationsWithPrices
        percentageActive := pctOrZero activeStationsToday totalUniqueStations
        percentageWithPrices := pctOrZero activeStationsWithPrices activeStationsToday }
    flagCompanyStats :=
      { totalBrands := activeBrandsToday
        activeBrandsToday := activeBrandsToday
        activeBrandsWithPrices := activeBrandsWithPrices
        percentageActive := pctOrZero activeBrandsWithPrices activeBrandsToday } }

/-- The per-group percentage rendered by the report,
`(group.count / analysis.totalRecords) * 100`, as an exact rational. -/
def groupPercentage (count total : ℕ) : ℚ :=
  (count : ℚ) / total * 100

/-- The data-extraction-plus-aggregation path of `generateReport`:
`filterTodayData(apiData)` never throws, but
`const allData = apiData.result ? apiData.result.records : []` reads a
property of `apiData` (a `TypeError` when `apiData` is nullish) and, when
`result` is truthy but `records` is not an array, hands the non-array
value to `analyzeData`, whose `allData.map(...)` throws a `TypeError`.
A thrown exception is modelled as `Except.error`. -/
def generateReportRun (fmtUtcMinus3 fmtLocal : ℤ → String) (now : ℤ)
    (d : ApiData) : Except String Analysis :=
  match d with
  | none => .error "TypeError: cannot read properties of null"
  | some none =>
      .ok (analyzeData (filterTodayData fmtUtcMinus3 fmtLocal now (some none)) [])
  | some (some (.arr rs)) =>
      .ok (analyzeData
        (filterTodayData fmtUtcMinus3 fmtLocal now (some (some (.arr rs)))) rs)
  | some (some .notArr) =>
      .error "TypeError: allData.map is not a function"

/-- The observable outcome of `sendEmail`: a resolved delivery receipt
carrying the provider message id, a thrown error, or the `undefined`
fall-through when the loop body never runs.  The outcome also records
the waits (in ms) performed between attempts and the attempt numbers
tried, in order. -/
inductive SendOutcome
  | ok (messageId : String) (sleepsMs : List ℕ) (tried : List ℕ)
  | err (msg : String) (sleepsMs : List ℕ) (tried : List ℕ)
  | noResult
deriving DecidableEq, Repr

/-- Record that attempt `a` failed and the loop slept `w` ms before the
rest of the run. -/
def consSleep (w a : ℕ) : SendOutcome → SendOutcome
  | .ok m s tr => .ok m (w :: s) (a :: tr)
  | .err m s tr => .err m (w :: s) (a :: tr)
  | .noResult => .noResult

/-- The retry loop of `sendEmail`, from attempt number `attempt` with
`rem` loop iterations remaining (`attempt + rem = retries + 1` at the
call site).  On failure before the last attempt the loop sleeps
`attempt * 2000` ms; on the last attempt it throws
`Failed to send email after N attempts` wrapping the final error. -/
def sendGo (transport : ℕ → Except String String) (retries : ℕ) :
    ℕ → ℕ → SendOutcome
  | _, 0 => .noResult
  | attempt, rem + 1 =>
    match transport attempt with
    | .ok mid => .ok mid [] [attempt]
    | .error e =>
      if attempt < retries then
        consSleep (attempt * 2000) attempt (sendGo transport retries (attempt + 1) rem)
      else
        .err ("Failed to send email after " ++ toString retries ++ " attempts: " ++ e)
          [] [attempt]

/-- `sendEmail(reportContent, retries)`: run the attempt loop
`for (let attempt = 1; attempt <= retries; attempt++)` against an
abstract transport giving each attempt's result. -/
def sendEmail (transport : ℕ → Except String String) (retries : ℕ) :
    SendOutcome :=
  sendGo transport retries 1 retries

/-- The observable decision of a trigger route: an early `400` response
with an error body, or entry into `executeReportWorkflow` (the only
place the upstream API call happens) with the resolved dates. -/
inductive TriggerResponse
  | badRequest (msg : String)
  | pipeline (startDate endDate : String)
deriving DecidableEq, Repr

/-- The `POST /trigger-report` handler up to the pipeline call:
default the dates, reject unparseable dates, reject
`moment(start).isAfter(moment(end))`, otherwise run the workflow.
`parse` models `moment(...)` validity and ordering on date strings. -/
def postTrigger (parse : String → Option ℤ) (defStart defEnd : String)
    (startDate endDate : Option String) : TriggerResponse :=
  let start := startDate.getD defStart
  let stop := endDate.getD defEnd
  match parse start, parse stop with
  | some ts, some te =>
      if te < ts then .badRequest "Start date cannot be after end date."
      else .pipeline start stop
  | _, _ => .badRequest "Invalid date format. Use YYYY-MM-DD format."

/-- The `GET /trigger-report` handler up to the pipeline call: defaults
the dates and runs the workflow with no validation at all. -/
def getTrigger (defStart defEnd : String)
    (startDate endDate : Option String) : TriggerResponse :=
  .pipeline (startDate.getD defStart) (endDate.getD defEnd)

/-- Sum of the `count` fields of a `GroupSummary` list. -/
def countSum (l : List GroupSummary) : ℕ :=
  (l.map GroupSummary.count).sum

/-- Sum of the `count` fields of a `StationSummary` list. -/
def stationCountSum (l : List StationSummary) : ℕ :=
  (l.map StationSummary.count).sum

/-- The groups of one dimension in first-seen (discovery) order, before
sorting. -/
def discoveryGroups (data : List Record) (field : Record → Option String) :
    List GroupSummary :=
  (groupDataBy data field).map mkGroupSummary

/-! ### Concrete inputs used by counterexamples and witnesses -/

/-- A today-record with a strictly positive price and no `idempresa`. -/
def rNoId : Record := { precio := some 5 }

/-- A today-record with a strictly positive price and `idempresa = "a"`. -/
def rA : Record := { idempresa := some "a", precio := some 5 }

/-- A record with no date-bearing field at all. -/
def rMissing : Record := {}

/-! ### Elementary facts about the rounding and percentage helpers -/

lemma ratFloor_eq_intFloor (q : ℚ) : q.floor = ⌊q⌋ := by
  rw [Rat.floor_def', Rat.floor_def]

lemma roundHalfUp_nonneg (m : ℕ) {q : ℚ} (h : 0 ≤ q) :
    0 ≤ roundHalfUp m q := by
  unfold roundHalfUp
  rw [ratFloor_eq_intFloor]
  apply div_nonneg _ (by positivity)
  have h0 : (0 : ℚ) ≤ q * m + 1 / 2 := by positivity
  exact_mod_cast Int.le_floor.mpr (by exact_mod_cast h0)

lemma roundHalfUp_le_100 {m : ℕ} (hm : 0 < m) {q : ℚ} (h : q ≤ 100) :
    roundHalfUp m q ≤ 100 := by
  unfold roundHalfUp
  rw [ratFloor_eq_intFloor]
  have hmq : (0 : ℚ) < (m : ℚ) := by exact_mod_cast hm
  rw [div_le_iff₀ hmq]
  have hlt : q * m + 1 / 2 < ((100 * m + 1 : ℤ) : ℚ) := by
    push_cast
    have : q * m ≤ 100 * m := by
      exact mul_le_mul_of_nonneg_right h (le_of_lt hmq)
    linarith
  have hfloor : ⌊q * m + 1 / 2⌋ < 100 * m + 1 := Int.floor_lt.mpr hlt
  have hfloor' : ⌊q * m + 1 / 2⌋ ≤ 100 * m := by omega
  calc (⌊q * m + 1 / 2⌋ : ℚ) ≤ ((100 * m : ℤ) : ℚ) := by exact_mod_cast hfloor'
    _ = 100 * m := by push_cast; ring

lemma pctOrZero_nonneg (n d : ℕ) : 0 ≤ pctOrZero n d := by
  unfold pctOrZero
  split
  · exact roundHalfUp_nonneg 100 (by positivity)
  · exact le_refl 0

lemma pctOrZero_zero_denom (n : ℕ) : pctOrZero n 0 = 0 := by
  simp [pctOrZero]

lemma pctOrZero_le_100 {n d : ℕ} (h : n ≤ d) : pctOrZero n d ≤ 100 := by
  unfold pctOrZero
  split
  case isTrue hd =>
    apply roundHalfUp_le_100 (by norm_num)
    have hdq : (0 : ℚ) < (d : ℚ) := by exact_mod_cast hd
    have hnd : (n : ℚ) / d ≤ 1 := by
      rw [div_le_one hdq]; exact_mod_cast h
    calc (n : ℚ) / d * 100 ≤ 1 * 100 := by
          exact mul_le_mul_of_nonneg_right hnd (by norm_num)
      _ = 100 := by ring
  case isFalse => norm_num

lemma groupPercentage_pos {c t : ℕ} (hc : 1 ≤ c) (hct : c ≤ t) :
    0 < groupPercentage c t := by
  unfold groupPercentage
  have ht : (0 : ℚ) < t := by exact_mod_cast lt_of_lt_of_le hc hct
  have hcq : (0 : ℚ) < c := by exact_mod_cast hc
  positivity

lemma groupPercentage_le_100 {c t : ℕ} (hct : c ≤ t) (ht : 0 < t) :
    groupPercentage c t ≤ 100 := by
  unfold groupPercentage
  have htq : (0 : ℚ) < t := by exact_mod_cast ht
  have : (c : ℚ) / t ≤ 1 := by
    rw [div_le_one htq]; exact_mod_cast hct
  calc (c : ℚ) / t * 100 ≤ 1 * 100 := mul_le_mul_of_nonneg_right this (by norm_num)
    _ = 100 := by ring

/-! ### Projection equations for `analyzeData` -/

lemma analyzeData_totalRecords (t a : List Record) :
    (analyzeData t a).totalRecords = t.length := rfl

lemma analyzeData_percentageActive (t a : List Record) :
    (analyzeData t a).gasStationStats.percentageActive =
      pctOrZero (distinctCount (t.filterMap Record.idempresa))
        (distinctCount (a.filterMap Record.idempresa)) := rfl

lemma analyzeData_percentageWithPrices (t a : List Record) :
    (analyzeData t a).gasStationStats.percentageWithPrices =
      pctOrZero (distinctCount ((t.filter hasPositivePrice).map Record.idempresa))
        (distinctCount (t.filterMap Record.idempresa)) := rfl

lemma analyzeData_flagPercentageActive (t a : List Record) :
    (analyzeData t a).flagCompanyStats.percentageActive =
      pctOrZero (distinctCount ((t.filter hasPositivePrice).map Record.empresabandera))
        (distinctCount (t.filterMap Record.empresabandera)) := rfl

lemma analyzeData_totalStations (t a : List Record) :
    (analyzeData t a).gasStationStats.totalStations =
      distinctCount (a.filterMap Record.idempresa) := rfl

lemma analyzeData_activeStationsToday (t a : List Record) :
    (analyzeData t a).gasStationStats.activeStationsToday =
      distinctCount (t.filterMap Record.idempresa) := rfl

lemma analyzeData_activeStationsWithPrices (t a : List Record) :
    (analyzeData t a).gasStationStats.activeStationsWithPrices =
      distinctCount ((t.filter hasPositivePrice).map Record.idempresa) := rfl

lemma analyzeData_activeBrandsToday (t a : List Record) :
    (analyzeData t a).flagCompanyStats.activeBrandsToday =
      distinctCount (t.filterMap Record.empresabandera) := rfl

lemma analyzeData_totalBrands (t a : List Record) :
    (analyzeData t a).flagCompanyStats.totalBrands =
      distinctCount (t.filterMap Record.empresabandera) := rfl

/-- Distinct-identifier counts are monotone under list inclusion. -/
lemma distinctCount_filterMap_le {β : Type} [DecidableEq β]
    (f : Record → Option β) {t a : List Record} (h : ∀ r ∈ t, r ∈ a) :
    distinctCount (t.filterMap f) ≤ distinctCount (a.filterMap f) := by
  unfold distinctCount
  rw [← List.card_toFinset, ← List.card_toFinset]
  apply Finset.card_le_card
  intro x hx
  rw [List.mem_toFinset, List.mem_filterMap] at hx
  obtain ⟨r, hr, hfr⟩ := hx
  rw [List.mem_toFinset, List.mem_filterMap]
  exact ⟨r, h r hr, hfr⟩

end PrecioNafta


namespace PrecioNafta

/-! ### The stable descending sort: permutation, sortedness, stability -/

lemma insertDescBy_perm {α : Type} (count : α → ℕ) (a : α) :
    ∀ l : List α, List.Perm (insertDescBy count a l) (a :: l)
  | [] => by simp [insertDescBy]
  | b :: l => by
      unfold insertDescBy
      split
      · exact List.Perm.refl _
      · exact ((insertDescBy_perm count a l).cons b).trans (List.Perm.swap a b l)

lemma sortByCountDescBy_perm {α : Type} (count : α → ℕ) :
    ∀ l : List α, List.Perm (sortByCountDescBy count l) l
  | [] => by simp [sortByCountDescBy]
  | a :: l => by
      show List.Perm (insertDescBy count a (sortByCountDescBy count l)) (a :: l)
      exact (insertDescBy_perm count a _).trans
        ((sortByCountDescBy_perm count l).cons a)

lemma pairwise_insertDescBy {α : Type} (count : α → ℕ) (a : α) :
    ∀ {l : List α}, l.Pairwise (fun x y => count y ≤ count x) →
      (insertDescBy count a l).Pairwise (fun x y => count y ≤ count x)
  | [], _ => by simp [insertDescBy]
  | b :: l, h => by
      unfold insertDescBy
      split
      case isTrue hba =>
        refine List.Pairwise.cons ?_ h
        intro x hx
        rcases List.mem_cons.mp hx with rfl | hxl
        · exact hba
        · exact le_trans (List.rel_of_pairwise_cons h hxl) hba
      case isFalse hba =>
        refine List.Pairwise.cons ?_ (pairwise_insertDescBy count a h.tail)
        intro x hx
        rcases List.mem_cons.mp ((insertDescBy_perm count a l).mem_iff.mp hx) with
          rfl | hxl
        · omega
        · exact List.rel_of_pairwise_cons h hxl

lemma sorted_sortByCountDescBy {α : Type} (count : α → ℕ) :
    ∀ l : List α,
      (sortByCountDescBy count l).Pairwise (fun x y => count y ≤ count x)
  | [] => by simp [sortByCountDescBy]
  | a :: l => by
      show (insertDescBy count a (sortByCountDescBy count l)).Pairwise _
      exact pairwise_insertDescBy count a (sorted_sortByCountDescBy count l)

lemma filter_insertDescBy {α : Type} (count : α → ℕ) (a : α) (c : ℕ) :
    ∀ l : List α,
      (insertDescBy count a l).filter (fun g => count g == c) =
        if count a = c then a :: l.filter (fun g => count g == c)
        else l.filter (fun g => count g == c)
  | [] => by
      by_cases hac : count a = c <;>
        simp [insertDescBy, List.filter_cons, hac]
  | b :: l => by
      unfold insertDescBy
      by_cases hba : count b ≤ count a
      · rw [if_pos hba]
        by_cases hac : count a = c <;>
          simp [List.filter_cons, hac]
      · rw [if_neg hba]
        by_cases hbc : count b = c
        · have hac : ¬ count a = c := by omega
          simp [List.filter_cons, hbc, hac, filter_insertDescBy count a c l]
        · by_cases hac : count a = c <;>
            simp [List.filter_cons, hbc, hac, filter_insertDescBy count a c l]

lemma filter_sortByCountDescBy {α : Type} (count : α → ℕ) (c : ℕ) :
    ∀ l : List α,
      (sortByCountDescBy count l).filter (fun g => count g == c) =
        l.filter (fun g => count g == c)
  | [] => by simp [sortByCountDescBy]
  | a :: l => by
      show (insertDescBy count a (sortByCountDescBy count l)).filter _ = _
      rw [filter_insertDescBy count a c (sortByCountDescBy count l)]
      by_cases hac : count a = c <;>
        simp [List.filter_cons, hac, filter_sortByCountDescBy count c l]

end PrecioNafta

namespace PrecioNafta

/-! ### The grouping pass: partition of the input -/

/-- Concatenation of all buckets of a grouping, in bucket order. -/
def joinGroups : List (String × List Record) → List Record
  | [] => []
  | g :: gs => g.2 ++ joinGroups gs

lemma joinGroups_pushGroup (key : String) (item : Record) :
    ∀ acc, List.Perm (joinGroups (pushGroup acc key item))
      (item :: joinGroups acc)
  | [] => by simp [pushGroup, joinGroups]
  | (k, items) :: rest => by
      unfold pushGroup
      split
      · show List.Perm ((items ++ [item]) ++ joinGroups rest)
          (item :: (items ++ joinGroups rest))
        exact ((List.perm_append_singleton item items).append_right _).trans
          (List.Perm.refl _)
      · show List.Perm (items ++ joinGroups (pushGroup rest key item))
          (item :: (items ++ joinGroups rest))
        exact ((joinGroups_pushGroup key item rest).append_left items).trans
          List.perm_middle

lemma joinGroups_foldl (field : Record → Option String) :
    ∀ (data : List Record) (acc : List (String × List Record)),
      List.Perm
        (joinGroups (data.foldl
          (fun acc item =>
            pushGroup acc ((field item).getD "Sin especificar") item) acc))
        (joinGroups acc ++ data)
  | [], acc => by simp
  | item :: rest, acc => by
      simp only [List.foldl_cons]
      refine (joinGroups_foldl field rest _).trans ?_
      refine ((joinGroups_pushGroup _ item acc).append_right rest).trans ?_
      exact List.perm_middle.symm

lemma joinGroups_groupDataBy (data : List Record)
    (field : Record → Option String) :
    List.Perm (joinGroups (groupDataBy data field)) data := by
  have h := joinGroups_foldl field data []
  simpa [joinGroups, groupDataBy] using h

lemma mem_joinGroups {x : Record} :
    ∀ gs : List (String × List Record),
      (x ∈ joinGroups gs ↔ ∃ g ∈ gs, x ∈ g.2)
  | [] => by simp [joinGroups]
  | g :: gs => by
      simp [joinGroups, List.mem_append, mem_joinGroups gs]

lemma length_joinGroups :
    ∀ gs : List (String × List Record),
      (joinGroups gs).length = (gs.map (fun g => g.2.length)).sum
  | [] => rfl
  | g :: gs => by
      simp [joinGroups, length_joinGroups gs]

lemma groupDataBy_sum (data : List Record) (field : Record → Option String) :
    ((groupDataBy data field).map (fun g => g.2.length)).sum = data.length := by
  rw [← length_joinGroups]
  exact (joinGroups_groupDataBy data field).length_eq

lemma pushGroup_keyInv (P : Record → String) (key : String) (item : Record)
    (hit : P item = key) :
    ∀ acc, (∀ g ∈ acc, ∀ r ∈ g.2, P r = g.1) →
      ∀ g ∈ pushGroup acc key item, ∀ r ∈ g.2, P r = g.1
  | [] => by
      intro _ g hg r hr
      simp only [pushGroup, List.mem_singleton] at hg
      subst hg
      simp only [List.mem_singleton] at hr
      subst hr
      exact hit
  | (k, items) :: rest => by
      intro hacc g hg r hr
      unfold pushGroup at hg
      split at hg
      case isTrue hk =>
        rcases List.mem_cons.mp hg with rfl | hgrest
        · rcases List.mem_append.mp hr with hri | hrlast
          · exact hacc (k, items) (List.mem_cons_self _ _) r hri
          · simp only [List.mem_singleton] at hrlast
            subst hrlast
            rw [hit, hk]
        · exact hacc g (List.mem_cons_of_mem _ hgrest) r hr
      case isFalse hk =>
        rcases List.mem_cons.mp hg with rfl | hgrest
        · exact hacc (k, items) (List.mem_cons_self _ _) r hr
        · exact pushGroup_keyInv P key item hit rest
            (fun g' hg' => hacc g' (List.mem_cons_of_mem _ hg')) g hgrest r hr

lemma groupDataBy_keyInv (data : List Record) (field : Record → Option String) :
    ∀ g ∈ groupDataBy data field, ∀ r ∈ g.2,
      (field r).getD "Sin especificar" = g.1 := by
  suffices h : ∀ (l : List Record) acc,
      (∀ g ∈ acc, ∀ r ∈ g.2, (field r).getD "Sin especificar" = g.1) →
      ∀ g ∈ l.foldl
        (fun acc item =>
          pushGroup acc ((field item).getD "Sin especificar") item) acc,
        ∀ r ∈ g.2, (field r).getD "Sin especificar" = g.1 by
    exact h data [] (by simp)
  intro l
  induction l with
  | nil => intro acc hacc; simpa using hacc
  | cons item rest ih =>
      intro acc hacc
      simp only [List.foldl_cons]
      exact ih _ (pushGroup_keyInv _ _ item rfl acc hacc)

lemma pushGroup_nonempty (key : String) (item : Record) :
    ∀ acc, (∀ g ∈ acc, g.2 ≠ []) →
      ∀ g ∈ pushGroup acc key item, g.2 ≠ []
  | [] => by
      intro _ g hg
      simp only [pushGroup, List.mem_singleton] at hg
      subst hg
      simp
  | (k, items) :: rest => by
      intro hacc g hg
      unfold pushGroup at hg
      split at hg
      case isTrue hk =>
        rcases List.mem_cons.mp hg with rfl | hgrest
        · simp
        · exact hacc g (List.mem_cons_of_mem _ hgrest)
      case isFalse hk =>
        rcases List.mem_cons.mp hg with rfl | hgrest
        · exact hacc (k, items) (List.mem_cons_self _ _)
        · exact pushGroup_nonempty key item rest
            (fun g' hg' => hacc g' (List.mem_cons_of_mem _ hg')) g hgrest

lemma groupDataBy_nonempty (data : List Record)
    (field : Record → Option String) :
    ∀ g ∈ groupDataBy data field, g.2 ≠ [] := by
  suffices h : ∀ (l : List Record) acc,
      (∀ g ∈ acc, g.2 ≠ []) →
      ∀ g ∈ l.foldl
        (fun acc item =>
          pushGroup acc ((field item).getD "Sin especificar") item) acc,
        g.2 ≠ [] by
    exact h data [] (by simp)
  intro l
  induction l with
  | nil => intro acc hacc; simpa using hacc
  | cons item rest ih =>
      intro acc hacc
      simp only [List.foldl_cons]
      exact ih _ (pushGroup_nonempty _ item acc hacc)

end PrecioNafta

namespace PrecioNafta

/-! ### Count sums at the `analyzeData` level -/

lemma analyzeData_byProduct (t a : List Record) :
    (analyzeData t a).byProduct =
      sortByCountDesc ((groupDataBy t Record.producto).map mkGroupSummary) := rfl

lemma analyzeData_byProvince (t a : List Record) :
    (analyzeData t a).byProvince =
      sortByCountDesc ((groupDataBy t Record.provincia).map mkGroupSummary) := rfl

lemma analyzeData_byGasStation (t a : List Record) :
    (analyzeData t a).byGasStation =
      sortStationsByCountDesc ((groupDataBy t Record.empresa).map
        (fun g => { name := g.1, count := g.2.length, records := g.2 })) := rfl

lemma analyzeData_byFlagCompany (t a : List Record) :
    (analyzeData t a).byFlagCompany =
      sortByCountDesc ((groupDataBy t Record.empresabandera).map mkGroupSummary) := rfl

lemma analyzeData_byLocality (t a : List Record) :
    (analyzeData t a).byLocality = (byLocalityFull t).take 10 := rfl

lemma countSum_sortByCountDesc (l : List GroupSummary) :
    countSum (sortByCountDesc l) = countSum l := by
  unfold countSum sortByCountDesc
  exact ((sortByCountDescBy_perm GroupSummary.count l).map GroupSummary.count).sum_eq

lemma stationCountSum_sort (l : List StationSummary) :
    stationCountSum (sortStationsByCountDesc l) = stationCountSum l := by
  unfold stationCountSum sortStationsByCountDesc
  exact ((sortByCountDescBy_perm StationSummary.count l).map StationSummary.count).sum_eq

lemma countSum_map_mkGroupSummary (gs : List (String × List Record)) :
    countSum (gs.map mkGroupSummary) = (gs.map (fun g => g.2.length)).sum := by
  simp only [countSum, List.map_map]
  rfl

lemma stationCountSum_map (gs : List (String × List Record)) :
    stationCountSum (gs.map
        (fun g => ({ name := g.1, count := g.2.length, records := g.2 } : StationSummary))) =
      (gs.map (fun g => g.2.length)).sum := by
  simp only [stationCountSum, List.map_map]
  rfl

lemma countSum_dimension (t : List Record) (field : Record → Option String) :
    countSum (sortByCountDesc ((groupDataBy t field).map mkGroupSummary)) =
      t.length := by
  rw [countSum_sortByCountDesc, countSum_map_mkGroupSummary, groupDataBy_sum]

/-- C2: over every grouping dimension — product, province, station, brand,
and locality before the top-10 cut — the `GroupSummary.count` values sum
to `totalRecords`, and every record is placed in the bucket named by its
grouping-field value, with a missing/empty value bucketed under the
literal `"Sin especificar"` and never dropped. -/
theorem analyzeData_partition (todayData allData : List Record) :
    countSum (analyzeData todayData allData).byProduct =
        (analyzeData todayData allData).totalRecords ∧
    countSum (analyzeData todayData allData).byProvince =
        (analyzeData todayData allData).totalRecords ∧
    stationCountSum (analyzeData todayData allData).byGasStation =
        (analyzeData todayData allData).totalRecords ∧
    countSum (analyzeData todayData allData).byFlagCompany =
        (analyzeData todayData allData).totalRecords ∧
    countSum (byLocalityFull todayData) =
        (analyzeData todayData allData).totalRecords ∧
    ∀ field : Record → Option String, ∀ r ∈ todayData,
      ∃ g ∈ groupDataBy todayData field,
        g.1 = (field r).getD "Sin especificar" ∧ r ∈ g.2 := by
  refine ⟨?_, ?_, ?_, ?_, ?_, ?_⟩
  · rw [analyzeData_byProduct, analyzeData_totalRecords, countSum_dimension]
  · rw [analyzeData_byProvince, analyzeData_totalRecords, countSum_dimension]
  · rw [analyzeData_byGasStation, analyzeData_totalRecords,
      stationCountSum_sort, stationCountSum_map, groupDataBy_sum]
  · rw [analyzeData_byFlagCompany, analyzeData_totalRecords, countSum_dimension]
  · rw [analyzeData_totalRecords]
    unfold byLocalityFull
    exact countSum_dimension todayData Record.localidad
  · intro field r hr
    have hrj : r ∈ joinGroups (groupDataBy todayData field) :=
      (joinGroups_groupDataBy todayData field).mem_iff.mpr hr
    obtain ⟨g, hg, hrg⟩ := (mem_joinGroups _).mp hrj
    exact ⟨g, hg, (groupDataBy_keyInv todayData field g hg r hrg).symm, hrg⟩

/-- Witness for `analyzeData_partition`: instantiated at a two-record
list, the record with no `producto` lands in the `"Sin especificar"`
bucket. -/
theorem analyzeData_partition_witness :
    ∃ g ∈ groupDataBy [rNoId, rA] Record.producto,
      g.1 = ((rNoId.producto).getD "Sin especificar") ∧ rNoId ∈ g.2 :=
  (analyzeData_partition [rNoId, rA] []).2.2.2.2.2 Record.producto rNoId
    (by simp)

end PrecioNafta

namespace PrecioNafta

/-! ### Percentage bounds (C1) and the coverage quirk (C10) -/

lemma mem_sorted_dimension {g : GroupSummary} {t : List Record}
    {field : Record → Option String}
    (hg : g ∈ sortByCountDesc ((groupDataBy t field).map mkGroupSummary)) :
    1 ≤ g.count ∧ g.count ≤ t.length := by
  have hg' : g ∈ (groupDataBy t field).map mkGroupSummary :=
    (sortByCountDescBy_perm GroupSummary.count _).mem_iff.mp hg
  obtain ⟨gr, hgr, rfl⟩ := List.mem_map.mp hg'
  constructor
  · have hne := groupDataBy_nonempty t field gr hgr
    have : 0 < gr.2.length := List.length_pos.mpr hne
    simpa [mkGroupSummary] using this
  · have hmem : gr.2.length ∈ (groupDataBy t field).map (fun g => g.2.length) :=
      List.mem_map.mpr ⟨gr, hgr, rfl⟩
    have hle := List.single_le_sum (fun x _ => Nat.zero_le x) _ hmem
    rw [groupDataBy_sum] at hle
    simpa [mkGroupSummary] using hle

/-- Shared evaluation: the coverage percentage at 2 priced identifiers
over 1 active station is exactly 200. -/
lemma pctOrZero_two_one : pctOrZero 2 1 = 200 := by
  rw [pctOrZero, if_pos (by norm_num : (0 : ℕ) < 1), round2, roundHalfUp,
    ratFloor_eq_intFloor]
  norm_num

lemma pctOrZero_zero_one : pctOrZero 0 1 = 0 := by
  rw [pctOrZero, if_pos (by norm_num : (0 : ℕ) < 1), round2, roundHalfUp,
    ratFloor_eq_intFloor]
  norm_num

/-- C1 (amended): every percentage field of the aggregation is a
well-defined nonnegative rational (never `NaN`), equals `0` whenever its
denominator is `0` — in particular the coverage percentage is `0`, not a
division error, when `activeStationsToday = 0` —, the station-coverage
percentage is at most `100` whenever the today-subset is drawn from the
full dataset, and every per-group percentage lies in `(0, 100]`.
(The original upper bound of `100` and the "equals 0 exactly when the
denominator is 0" fail in general; see the counterexample.) -/
theorem analyzeData_percentages (todayData allData : List Record) :
    (0 ≤ (analyzeData todayData allData).gasStationStats.percentageActive) ∧
    (0 ≤ (analyzeData todayData allData).gasStationStats.percentageWithPrices) ∧
    (0 ≤ (analyzeData todayData allData).flagCompanyStats.percentageActive) ∧
    ((analyzeData todayData allData).gasStationStats.totalStations = 0 →
      (analyzeData todayData allData).gasStationStats.percentageActive = 0) ∧
    ((analyzeData todayData allData).gasStationStats.activeStationsToday = 0 →
      (analyzeData todayData allData).gasStationStats.percentageWithPrices = 0) ∧
    ((analyzeData todayData allData).flagCompanyStats.activeBrandsToday = 0 →
      (analyzeData todayData allData).flagCompanyStats.percentageActive = 0) ∧
    ((∀ r ∈ todayData, r ∈ allData) →
      (analyzeData todayData allData).gasStationStats.percentageActive ≤ 100) ∧
    (∀ g ∈ (analyzeData todayData allData).byProduct,
      0 < groupPercentage g.count (analyzeData todayData allData).totalRecords ∧
      groupPercentage g.count (analyzeData todayData allData).totalRecords ≤ 100) ∧
    (∀ g ∈ (analyzeData todayData allData).byProvince,
      0 < groupPercentage g.count (analyzeData todayData allData).totalRecords ∧
      groupPercentage g.count (analyzeData todayData allData).totalRecords ≤ 100) ∧
    (∀ g ∈ (analyzeData todayData allData).byFlagCompany,
      0 < groupPercentage g.count (analyzeData todayData allData).totalRecords ∧
      groupPercentage g.count (analyzeData todayData allData).totalRecords ≤ 100) := by
  refine ⟨?_, ?_, ?_, ?_, ?_, ?_, ?_, ?_, ?_, ?_⟩
  · rw [analyzeData_percentageActive]; exact pctOrZero_nonneg _ _
  · rw [analyzeData_percentageWithPrices]; exact pctOrZero_nonneg _ _
  · rw [analyzeData_flagPercentageActive]; exact pctOrZero_nonneg _ _
  · intro h
    rw [analyzeData_totalStations] at h
    rw [analyzeData_percentageActive, h]
    exact pctOrZero_zero_denom _
  · intro h
    rw [analyzeData_activeStationsToday] at h
    rw [analyzeData_percentageWithPrices, h]
    exact pctOrZero_zero_denom _
  · intro h
    rw [analyzeData_activeBrandsToday] at h
    rw [analyzeData_flagPercentageActive, h]
    exact pctOrZero_zero_denom _
  · intro h
    rw [analyzeData_percentageActive]
    exact pctOrZero_le_100 (distinctCount_filterMap_le Record.idempresa h)
  · intro g hg
    rw [analyzeData_byProduct] at hg
    obtain ⟨h1, h2⟩ := mem_sorted_dimension hg
    rw [analyzeData_totalRecords]
    exact ⟨groupPercentage_pos h1 h2,
      groupPercentage_le_100 h2 (lt_of_lt_of_le h1 h2)⟩
  · intro g hg
    rw [analyzeData_byProvince] at hg
    obtain ⟨h1, h2⟩ := mem_sorted_dimension hg
    rw [analyzeData_totalRecords]
    exact ⟨groupPercentage_pos h1 h2,
      groupPercentage_le_100 h2 (lt_of_lt_of_le h1 h2)⟩
  · intro g hg
    rw [analyzeData_byFlagCompany] at hg
    obtain ⟨h1, h2⟩ := mem_sorted_dimension hg
    rw [analyzeData_totalRecords]
    exact ⟨groupPercentage_pos h1 h2,
      groupPercentage_le_100 h2 (lt_of_lt_of_le h1 h2)⟩

/-- C1 counterexample: for the today-subset `[rNoId, rA]` (a priced
record with no station id next to a priced identified one) the coverage
percentage `percentageWithPrices` is `200`, outside `[0, 100]`; and for
today-subset `[rNoId]` against full dataset `[rA]` the station coverage
percentage is `0` although its denominator `totalStations` is `1`, not `0`,
refuting "equals 0 exactly when its denominator is 0". -/
theorem analyzeData_percentages_counterexample :
    (analyzeData [rNoId, rA] []).gasStationStats.percentageWithPrices = 200 ∧
    ¬ ((analyzeData [rNoId, rA] []).gasStationStats.percentageWithPrices ≤ 100) ∧
    (analyzeData [rNoId] [rA]).gasStationStats.percentageActive = 0 ∧
    (analyzeData [rNoId] [rA]).gasStationStats.totalStations = 1 := by
  have h1 : (analyzeData [rNoId, rA] []).gasStationStats.percentageWithPrices =
      pctOrZero 2 1 := rfl
  have h3 : (analyzeData [rNoId] [rA]).gasStationStats.percentageActive =
      pctOrZero 0 1 := rfl
  refine ⟨h1.trans pctOrZero_two_one, ?_, h3.trans pctOrZero_zero_one, by decide⟩
  rw [h1, pctOrZero_two_one]
  norm_num

/-- Witness for `analyzeData_percentages`: all hypothesis-bearing parts
exercised at concrete inputs. -/
theorem analyzeData_percentages_witness :
    (analyzeData [rNoId] []).gasStationStats.percentageActive = 0 ∧
    (analyzeData [rNoId] []).gasStationStats.percentageWithPrices = 0 ∧
    (analyzeData [rNoId] []).flagCompanyStats.percentageActive = 0 ∧
    (analyzeData [rA] [rA]).gasStationStats.percentageActive ≤ 100 ∧
    0 < groupPercentage (mkGroupSummary ("Sin especificar", [rA])).count
        (analyzeData [rA] [rA]).totalRecords :=
  ⟨(analyzeData_percentages [rNoId] []).2.2.2.1 (by decide),
   (analyzeData_percentages [rNoId] []).2.2.2.2.1 (by decide),
   (analyzeData_percentages [rNoId] []).2.2.2.2.2.1 (by decide),
   (analyzeData_percentages [rA] [rA]).2.2.2.2.2.2.1 (by decide),
   ((analyzeData_percentages [rA] [rA]).2.2.2.2.2.2.2.1 _ (by decide)).1⟩

/-- C9: `totalBrands` is assigned the size of the very same set as
`activeBrandsToday` — the distinct truthy `empresabandera` values of the
today-subset — never an all-time count over the full dataset. -/
theorem totalBrands_eq_activeBrandsToday (todayData allData : List Record) :
    (analyzeData todayData allData).flagCompanyStats.totalBrands =
      (analyzeData todayData allData).flagCompanyStats.activeBrandsToday ∧
    (analyzeData todayData allData).flagCompanyStats.totalBrands =
      distinctCount (todayData.filterMap Record.empresabandera) :=
  ⟨rfl, rfl⟩

/-- C10: the with-prices station set keeps records with a missing
`idempresa` (the `undefined` identifier is a set element) while the
active-today set drops them; on `[rNoId, rA]` this makes
`activeStationsWithPrices = 2 > 1 = activeStationsToday` and pushes
`percentageWithPrices` to `200 > 100`. -/
theorem activeStationsWithPrices_keeps_missing_ids :
    (analyzeData [rNoId] []).gasStationStats.activeStationsWithPrices = 1 ∧
    (analyzeData [rNoId] []).gasStationStats.activeStationsToday = 0 ∧
    (analyzeData [rNoId, rA] []).gasStationStats.activeStationsWithPrices = 2 ∧
    (analyzeData [rNoId, rA] []).gasStationStats.activeStationsToday = 1 ∧
    (analyzeData [rNoId, rA] []).gasStationStats.activeStationsToday <
      (analyzeData [rNoId, rA] []).gasStationStats.activeStationsWithPrices ∧
    100 < (analyzeData [rNoId, rA] []).gasStationStats.percentageWithPrices := by
  refine ⟨by decide, by decide, by decide, by decide, by decide, ?_⟩
  have h1 : (analyzeData [rNoId, rA] []).gasStationStats.percentageWithPrices =
      pctOrZero 2 1 := rfl
  rw [h1, pctOrZero_two_one]
  norm_num

end PrecioNafta

namespace PrecioNafta

/-! ### The two date filters (C5, C6) and the malformed-envelope path (C3) -/

/-- C5 (amended): in the range filter a record with a parseable date
matches iff its parsed instant lies in `[start, end]`, inclusive on both
ends; a record with an unparseable date never matches; but a record
lacking a date field altogether is given the current instant
(`moment(undefined)` is now) and matches iff `now` lies in the range —
it is not unconditionally excluded. -/
theorem filterDataByDate_mem (rs : List Record) (startT endT now : ℤ)
    (r : Record) :
    r ∈ filterDataByDate (some (some (.arr rs))) startT endT now ↔
      r ∈ rs ∧
        ((∃ t, r.fecha = DateField.parsed t ∧ startT ≤ t ∧ t ≤ endT) ∨
          (r.fecha = DateField.missing ∧ startT ≤ now ∧ now ≤ endT)) := by
  unfold filterDataByDate
  rw [List.mem_filter]
  constructor
  · rintro ⟨hmem, hcond⟩
    refine ⟨hmem, ?_⟩
    cases hf : r.fecha with
    | missing =>
        rw [hf] at hcond
        simp only [momentOf] at hcond
        exact Or.inr ⟨rfl, of_decide_eq_true hcond⟩
    | invalid =>
        rw [hf] at hcond
        simp [momentOf] at hcond
    | parsed t =>
        rw [hf] at hcond
        simp only [momentOf] at hcond
        exact Or.inl ⟨t, rfl, of_decide_eq_true hcond⟩
  · rintro ⟨hmem, hor⟩
    refine ⟨hmem, ?_⟩
    rcases hor with ⟨t, hf, h1, h2⟩ | ⟨hf, h1, h2⟩
    · rw [hf]
      simpa [momentOf] using ⟨h1, h2⟩
    · rw [hf]
      simpa [momentOf] using ⟨h1, h2⟩

/-- C5 counterexample: a record with no date field matches the range
filter whenever the current instant lies inside the range, so it is not
"never matching". -/
theorem filterDataByDate_missing_matches_counterexample :
    rMissing.fecha = DateField.missing ∧
    filterDataByDate (some (some (.arr [rMissing]))) 0 200 100 = [rMissing] := by
  exact ⟨rfl, by decide⟩

/-- C6: the today filter computes today's calendar date at UTC-3
(`fmtUtcMinus3 now`), and a record of a well-formed dataset matches iff
its `fecha_vigencia`, formatted as a calendar date in local terms with
no UTC shift applied (`itemDateStr fmtLocal now`), equals that date. -/
theorem filterTodayData_mem (fmtUtcMinus3 fmtLocal : ℤ → String) (now : ℤ)
    (rs : List Record) (r : Record) :
    r ∈ filterTodayData fmtUtcMinus3 fmtLocal now (some (some (.arr rs))) ↔
      r ∈ rs ∧
        itemDateStr fmtLocal now r.fecha_vigencia = fmtUtcMinus3 now := by
  unfold filterTodayData
  rw [List.mem_filter]
  constructor
  · rintro ⟨hmem, hcond⟩
    exact ⟨hmem, of_decide_eq_true hcond⟩
  · rintro ⟨hmem, hcond⟩
    exact ⟨hmem, decide_eq_true hcond⟩

/-- C3 (code bug): both filters return `[]` on every malformed envelope
and never throw, but the report-generation path is not total: on a
nullish response it throws reading `apiData.result`, and on a truthy
`result` whose `records` is not an array it hands the non-array to
`analyzeData`, whose `allData.map` throws.  The claimed zero-count
report is only produced when `result` is falsy. -/
theorem malformed_envelope_behaviour (fmtUtcMinus3 fmtLocal : ℤ → String)
    (now startT endT : ℤ) :
    filterTodayData fmtUtcMinus3 fmtLocal now none = [] ∧
    filterTodayData fmtUtcMinus3 fmtLocal now (some none) = [] ∧
    filterTodayData fmtUtcMinus3 fmtLocal now (some (some RecordsField.notArr)) = [] ∧
    filterDataByDate none startT endT now = [] ∧
    filterDataByDate (some none) startT endT now = [] ∧
    filterDataByDate (some (some RecordsField.notArr)) startT endT now = [] ∧
    (generateReportRun fmtUtcMinus3 fmtLocal now (some none) =
      Except.ok (analyzeData [] [])) ∧
    (∃ e, generateReportRun fmtUtcMinus3 fmtLocal now none = Except.error e) ∧
    (∃ e, generateReportRun fmtUtcMinus3 fmtLocal now
      (some (some RecordsField.notArr)) = Except.error e) := by
  refine ⟨rfl, rfl, rfl, rfl, rfl, rfl, rfl, ⟨_, rfl⟩, ⟨_, rfl⟩⟩

end PrecioNafta

namespace PrecioNafta

/-! ### The mailer retry loop (C4) -/

lemma sendGo_success (t : ℕ → Except String String) (retries k : ℕ)
    (mid : String) (hk1 : 1 ≤ k) (hkr : k ≤ retries)
    (hfail : ∀ i, 1 ≤ i → i < k → ∃ e, t i = Except.error e)
    (hok : t k = Except.ok mid) :
    ∀ (rem attempt : ℕ), attempt + rem = retries + 1 → 1 ≤ attempt →
      attempt ≤ k →
      sendGo t retries attempt rem =
        SendOutcome.ok mid
          ((List.range' attempt (k - attempt)).map (fun i => i * 2000))
          (List.range' attempt (k - attempt + 1))
  | 0, attempt => by
      intro hsum h1 hk
      omega
  | rem + 1, attempt => by
      intro hsum h1 hk
      unfold sendGo
      rcases eq_or_lt_of_le hk with rfl | hlt
      · rw [hok]
        have hz : attempt - attempt = 0 := by omega
        simp [hz]
      · obtain ⟨e, he⟩ := hfail attempt h1 hlt
        simp only [he]
        have hcond : attempt < retries := by omega
        rw [if_pos hcond]
        rw [sendGo_success t retries k mid hk1 hkr hfail hok rem (attempt + 1)
          (by omega) (by omega) (by omega)]
        have hk2 : k - attempt = (k - (attempt + 1)) + 1 := by omega
        rw [hk2, List.range'_succ]
        simp [consSleep, List.range'_succ]

lemma sendGo_allFail (t : ℕ → Except String String) (retries : ℕ)
    (e : ℕ → String)
    (hfail : ∀ i, 1 ≤ i → i ≤ retries → t i = Except.error (e i)) :
    ∀ (rem attempt : ℕ), attempt + rem = retries + 1 → 1 ≤ attempt →
      attempt ≤ retries →
      sendGo t retries attempt rem =
        SendOutcome.err
          ("Failed to send email after " ++ toString retries ++
            " attempts: " ++ e retries)
          ((List.range' attempt (retries - attempt)).map (fun i => i * 2000))
          (List.range' attempt (retries - attempt + 1))
  | 0, attempt => by
      intro hsum h1 hr
      omega
  | rem + 1, attempt => by
      intro hsum h1 hr
      unfold sendGo
      simp only [hfail attempt h1 hr]
      rcases eq_or_lt_of_le hr with rfl | hlt
      · rw [if_neg (by omega : ¬ attempt < attempt)]
        have hz : attempt - attempt = 0 := by omega
        simp [hz]
      · rw [if_pos hlt]
        rw [sendGo_allFail t retries e hfail rem (attempt + 1)
          (by omega) (by omega) (by omega)]
        have hk2 : retries - attempt = (retries - (attempt + 1)) + 1 := by omega
        rw [hk2, List.range'_succ]
        simp [consSleep, List.range'_succ]

/-- C4: the retry loop of `sendEmail` is bounded by `retries` attempts.
If the transport first succeeds at attempt `k ≤ retries`, `sendEmail`
resolves with the provider message id having tried exactly attempts
`1..k` and slept `i * 2000` ms after each failed attempt `i < k`; if
every attempt fails, it throws an error naming the attempt count and
wrapping the final underlying error, having tried exactly attempts
`1..retries` with the linear backoff `2000, 4000, ...` ms between them
(for the default `retries = 3`: 2s then 4s). -/
theorem sendEmail_retry_contract (t : ℕ → Except String String)
    (retries k : ℕ) (mid : String) (e : ℕ → String) :
    (1 ≤ k → k ≤ retries →
      (∀ i, 1 ≤ i → i < k → t i = Except.error (e i)) →
      t k = Except.ok mid →
      sendEmail t retries =
        SendOutcome.ok mid
          ((List.range' 1 (k - 1)).map (fun i => i * 2000))
          (List.range' 1 k)) ∧
    (1 ≤ retries →
      (∀ i, 1 ≤ i → i ≤ retries → t i = Except.error (e i)) →
      sendEmail t retries =
        SendOutcome.err
          ("Failed to send email after " ++ toString retries ++
            " attempts: " ++ e retries)
          ((List.range' 1 (retries - 1)).map (fun i => i * 2000))
          (List.range' 1 retries)) := by
  constructor
  · intro hk1 hkr hf hok
    unfold sendEmail
    rw [sendGo_success t retries k mid hk1 hkr
      (fun i h1 h2 => ⟨e i, hf i h1 h2⟩) hok retries 1 (by omega) (by omega)
      (by omega)]
    have h1 : k - 1 + 1 = k := by omega
    rw [h1]
  · intro hr hf
    unfold sendEmail
    rw [sendGo_allFail t retries e hf retries 1 (by omega) (by omega)
      (by omega)]
    have h1 : retries - 1 + 1 = retries := by omega
    rw [h1]

/-- A transport failing on attempts 1 and 2 and succeeding on attempt 3. -/
def transportTwoFails : ℕ → Except String String :=
  fun i => if i < 3 then Except.error ("boom" ++ toString i) else Except.ok "msg-id"

/-- A transport failing on every attempt. -/
def transportAllFail : ℕ → Except String String :=
  fun i => Except.error ("boom" ++ toString i)

/-- The error messages of the two concrete transports. -/
def boomMsg : ℕ → String := fun i => "boom" ++ toString i

/-- Witness for `sendEmail_retry_contract` at `retries = 3`: two
failures then success resolves after exactly attempts `[1, 2, 3]` with
sleeps `[2000, 4000]` ms; all-failures throws after exactly 3 attempts
wrapping the final error, with cumulative backoff 2s + 4s. -/
theorem sendEmail_retry_contract_witness :
    sendEmail transportTwoFails 3 =
      SendOutcome.ok "msg-id" [2000, 4000] [1, 2, 3] ∧
    sendEmail transportAllFail 3 =
      SendOutcome.err "Failed to send email after 3 attempts: boom3"
        [2000, 4000] [1, 2, 3] := by
  constructor
  · have h := (sendEmail_retry_contract transportTwoFails 3 3 "msg-id" boomMsg).1
      (by norm_num) (by norm_num)
      (fun i h1 h2 => by interval_cases i <;> rfl) (by rfl)
    rw [h]
    rfl
  · have h := (sendEmail_retry_contract transportAllFail 3 3 "msg-id" boomMsg).2
      (by norm_num) (fun i _ _ => rfl)
    rw [h]
    rfl

end PrecioNafta

namespace PrecioNafta

/-! ### Ordering and stability of the group lists (C7) -/

/-- The gas-station groups in first-seen (discovery) order. -/
def discoveryStations (data : List Record) : List StationSummary :=
  (groupDataBy data Record.empresa).map
    (fun g => { name := g.1, count := g.2.length, records := g.2 })

/-- C7: every group list produced by `analyzeData` is sorted by
descending `count`, and the sort is stable: for each count value, the
subsequence of groups having that count is exactly the one of the
discovery-ordered grouping pass, in the same order. -/
theorem analyzeData_sorted_stable (todayData allData : List Record) :
    (analyzeData todayData allData).byProduct.Pairwise
        (fun x y => y.count ≤ x.count) ∧
    (analyzeData todayData allData).byProvince.Pairwise
        (fun x y => y.count ≤ x.count) ∧
    (analyzeData todayData allData).byGasStation.Pairwise
        (fun x y => y.count ≤ x.count) ∧
    (analyzeData todayData allData).byFlagCompany.Pairwise
        (fun x y => y.count ≤ x.count) ∧
    (byLocalityFull todayData).Pairwise (fun x y => y.count ≤ x.count) ∧
    (analyzeData todayData allData).byLocality.Pairwise
        (fun x y => y.count ≤ x.count) ∧
    (∀ c : ℕ,
      (analyzeData todayData allData).byProduct.filter (fun g => g.count == c) =
        (discoveryGroups todayData Record.producto).filter (fun g => g.count == c)) ∧
    (∀ c : ℕ,
      (analyzeData todayData allData).byProvince.filter (fun g => g.count == c) =
        (discoveryGroups todayData Record.provincia).filter (fun g => g.count == c)) ∧
    (∀ c : ℕ,
      (analyzeData todayData allData).byGasStation.filter (fun g => g.count == c) =
        (discoveryStations todayData).filter (fun g => g.count == c)) ∧
    (∀ c : ℕ,
      (analyzeData todayData allData).byFlagCompany.filter (fun g => g.count == c) =
        (discoveryGroups todayData Record.empresabandera).filter (fun g => g.count == c)) ∧
    (∀ c : ℕ,
      (byLocalityFull todayData).filter (fun g => g.count == c) =
        (discoveryGroups todayData Record.localidad).filter (fun g => g.count == c)) := by
  refine ⟨?_, ?_, ?_, ?_, ?_, ?_, ?_, ?_, ?_, ?_, ?_⟩
  · exact sorted_sortByCountDescBy GroupSummary.count _
  · exact sorted_sortByCountDescBy GroupSummary.count _
  · exact sorted_sortByCountDescBy StationSummary.count _
  · exact sorted_sortByCountDescBy GroupSummary.count _
  · exact sorted_sortByCountDescBy GroupSummary.count _
  · exact List.Pairwise.sublist (List.take_sublist 10 _)
      (sorted_sortByCountDescBy GroupSummary.count _)
  · intro c; exact filter_sortByCountDescBy GroupSummary.count c _
  · intro c; exact filter_sortByCountDescBy GroupSummary.count c _
  · intro c; exact filter_sortByCountDescBy StationSummary.count c _
  · intro c; exact filter_sortByCountDescBy GroupSummary.count c _
  · intro c; exact filter_sortByCountDescBy GroupSummary.count c _

/-! ### Trigger-route date validation (C8) -/

/-- C8: on the POST route, whenever both resolved dates parse and the
start date is strictly after the end date, the request is answered with
the 400 body `Start date cannot be after end date.` and the pipeline —
the only place the upstream API is called — is never entered; the GET
route applies no validation and always enters the pipeline. -/
theorem trigger_report_validation (parse : String → Option ℤ)
    (defStart defEnd s e : String) (ts te : ℤ)
    (hs : parse s = some ts) (he : parse e = some te) (hlt : te < ts) :
    postTrigger parse defStart defEnd (some s) (some e) =
      TriggerResponse.badRequest "Start date cannot be after end date." ∧
    getTrigger defStart defEnd (some s) (some e) =
      TriggerResponse.pipeline s e := by
  constructor
  · unfold postTrigger
    simp only [Option.getD_some, hs, he]
    rw [if_pos hlt]
  · rfl

/-- A concrete `moment`-style parse for the scenario of the spec. -/
def parseWit : String → Option ℤ := fun x =>
  if x = "2024-02-01" then some 20240201
  else if x = "2024-01-01" then some 20240101
  else none

/-- Witness for `trigger_report_validation` at the spec's scenario:
`startDate = 2024-02-01`, `endDate = 2024-01-01`. -/
theorem trigger_report_validation_witness :
    postTrigger parseWit "2024-01-01" "2024-01-08"
        (some "2024-02-01") (some "2024-01-01") =
      TriggerResponse.badRequest "Start date cannot be after end date." ∧
    getTrigger "2024-01-01" "2024-01-08"
        (some "2024-02-01") (some "2024-01-01") =
      TriggerResponse.pipeline "2024-02-01" "2024-01-01" :=
  trigger_report_validation parseWit "2024-01-01" "2024-01-08"
    "2024-02-01" "2024-01-01" 20240201 20240101
    (by decide) (by decide) (by norm_num)

end PrecioNafta
